import Mathlib

/-!
Shallow embedding of src/libobs/obs-stage.c (TechDevGroup/obs-impl).

State is passed explicitly: ObsCore models the global obs core data
(the stage registry list, the live weak control blocks and the world of
output objects), and every embedded operation returns the updated state
together with a trace of observable events (mutex operations, signal
emissions and teardown steps), so that temporal statements about lock
discipline and signal ordering can be made about concrete traces.
Machine integers are Nat with an explicit % 2^32 where the C code works
on uint32_t values.

Collaborators that obs-stage.c calls but whose code is not under src/
(the reference-count primitives of obs-internal.h, the canvas factory,
the output child contract of spec section 6, obs_data records) are
modelled from the spec; each such definition carries a doc comment
starting with "Modelled from the spec:".
-/

namespace ObsImpl

/-- struct obs_video_info: the fields obs-stage.c reads and writes
(all uint32_t in C). -/
structure ObsVideoInfo where
  base_width : Nat
  base_height : Nat
  output_width : Nat
  output_height : Nat
  fps_num : Nat
  fps_den : Nat
deriving DecidableEq, Repr

/-- Modelled from the spec: OBS_STAGE_MAIN, the "primary" capability bit
(obs.h is not under src/; the model uses distinct single bits, the exact
numeric values are immaterial to the embedded code). -/
def OBS_STAGE_MAIN : Nat := 1

/-- Modelled from the spec: OBS_STAGE_MIX_AUDIO capability bit. -/
def OBS_STAGE_MIX_AUDIO : Nat := 2

/-- Modelled from the spec: OBS_STAGE_EPHEMERAL (non-persisted) capability bit. -/
def OBS_STAGE_EPHEMERAL : Nat := 4

/-- 2^32, the modulus of uint32_t arithmetic. -/
def UINT32_LIMIT : Nat := 4294967296

/-- The uint32 bit pattern of the C expression ~OBS_STAGE_MAIN. -/
def NOT_MAIN_MASK : Nat := UINT32_LIMIT - 1 - OBS_STAGE_MAIN

/-- Modelled from the spec: canvas flag MIX_AUDIO (canvas headers not under src/). -/
def MIX_AUDIO : Nat := 1

/-- Modelled from the spec: canvas flag EPHEMERAL. -/
def EPHEMERAL : Nat := 2

abbrev StageId := Nat
abbrev OutputId := Nat

/-- Modelled from the spec: the bound lower-level resource (obs_canvas_t,
code not under src/).  Per spec section 6 it stores a name, a video
configuration and creation flags; get_resource_config returns the stored
configuration and set_resource_name replaces the name. -/
structure Canvas where
  name : String
  ovi : ObsVideoInfo
  canvas_flags : Nat
deriving DecidableEq, Repr

/-- Modelled from the spec: a child output object (obs_output_t, code not
under src/), reduced to the child contract of spec section 6: identity,
an active flag, and a strong reference count (0 means the object is
gone, so acquiring a strong reference fails). -/
structure ObsOutput where
  id : OutputId
  active : Bool
  refs : Nat
deriving DecidableEq, Repr

/-- Modelled from the spec: struct obs_weak_ref of obs-internal.h (not
under src/).  refs is the strong count and weak_refs the weak count; the
weak count includes the implicit weak reference the object holds on
itself for as long as it is alive. -/
structure ObsWeakRef where
  refs : Nat
  weak_refs : Nat
deriving DecidableEq, Repr

/-- struct obs_stage: flags, context identity (name, uuid, private flag),
the bound canvas and the owned outputs array (outputs are stored by
identity, as the C array stores pointers).  The intrusive registry links
(next / prev_next) are represented by the stage's position in
ObsCore.stages.  The C field context.private is renamed isPrivate
because private is a Lean keyword. -/
structure Stage where
  id : StageId
  flags : Nat
  name : String
  uuid : Option String
  isPrivate : Bool
  canvas : Option Canvas
  outputs : List OutputId
deriving DecidableEq, Repr

/-- Observable events recorded by the embedded operations: mutex
operations, signal emissions (global = on obs->signals, stage = on the
per-object bus), child-contract calls, and teardown steps.  destroyBegin
marks an invocation of obs_stage_destroy. -/
inductive Event where
  | lockStages
  | unlockStages
  | lockOutputs (sid : StageId)
  | unlockOutputs (sid : StageId)
  | globalSignal (name : String) (sid : StageId)
  | stageSignal (sid : StageId) (name : String)
  | stageRename (sid : StageId) (new_name prev_name : String)
  | globalRename (sid : StageId) (new_name prev_name : String)
  | outputSignal (sid : StageId) (name : String) (o : OutputId)
  | outputStop (o : OutputId)
  | outputStart (o : OutputId)
  | outputRelease (o : OutputId)
  | canvasRelease (sid : StageId)
  | unlinkStage (sid : StageId)
  | freeStage (sid : StageId)
  | destroyBegin (sid : StageId)
  | weakRelease (sid : StageId)
  | freeControl (sid : StageId)
deriving DecidableEq, Repr

/-- The global obs core data touched by obs-stage.c: the stage registry
(intrusive doubly-linked list headed at obs->data.first_stage, modelled
as a list with the head first), the live weak control blocks keyed by
stage id (a block stays here until bfree in obs_weak_stage_release), the
world of output objects, and a fresh-id source standing for the
allocator. -/
structure ObsCore where
  stages : List Stage
  controls : List (StageId × ObsWeakRef)
  outs : List ObsOutput
  nextId : Nat
deriving DecidableEq, Repr

/-! ### State helpers -/

/-- Dereference a stage pointer: find the live stage with this identity. -/
def findStage (core : ObsCore) (id : StageId) : Option Stage :=
  core.stages.find? (fun s => s.id == id)

/-- In-place mutation through a stage pointer: rewrite the registry entry
with this identity. -/
def updateStage (core : ObsCore) (id : StageId) (f : Stage → Stage) : ObsCore :=
  { core with stages := core.stages.map (fun s => if s.id == id then f s else s) }

/-- Dereference a weak control-block pointer. -/
def lookupControl (core : ObsCore) (id : StageId) : Option ObsWeakRef :=
  (core.controls.find? (fun c => c.fst == id)).map (fun c => c.snd)

/-- In-place mutation of a weak control block. -/
def setControl (core : ObsCore) (id : StageId) (r : ObsWeakRef) : ObsCore :=
  { core with controls := core.controls.map (fun c => if c.fst == id then (id, r) else c) }

/-- bfree of a weak control block. -/
def eraseControl (core : ObsCore) (id : StageId) : ObsCore :=
  { core with controls := core.controls.eraseP (fun c => c.fst == id) }

/-- Dereference an output pointer in the modelled output world. -/
def findOut (outs : List ObsOutput) (o : OutputId) : Option ObsOutput :=
  outs.find? (fun x => x.id == o)

/-- In-place mutation through an output pointer. -/
def updateOut (outs : List ObsOutput) (o : OutputId) (f : ObsOutput → ObsOutput) :
    List ObsOutput :=
  outs.map (fun x => if x.id == o then f x else x)

/-! ### Modelled collaborator operations (not under src/) -/

/-- Modelled from the spec: obs_output_active, the child contract
is_active query. -/
def obs_output_active (outs : List ObsOutput) (o : OutputId) : Bool :=
  (findOut outs o).elim false (fun x => x.active)

/-- Modelled from the spec: obs_output_stop; the child's active state
becomes false. -/
def obs_output_stop (outs : List ObsOutput) (o : OutputId) : List ObsOutput :=
  updateOut outs o (fun x => { x with active := false })

/-- Modelled from the spec: obs_output_release; drops one strong
reference on the child. -/
def obs_output_release (outs : List ObsOutput) (o : OutputId) : List ObsOutput :=
  updateOut outs o (fun x => { x with refs := x.refs - 1 })

/-- Modelled from the spec: obs_output_get_ref; acquiring a strong
reference succeeds exactly when the child's strong count is still
positive (a closing race otherwise), and increments it. -/
def obs_output_get_ref (outs : List ObsOutput) (o : OutputId) : List ObsOutput × Bool :=
  match findOut outs o with
  | some x => if x.refs > 0 then (updateOut outs o (fun y => { y with refs := y.refs + 1 }), true)
              else (outs, false)
  | none => (outs, false)

/-- Modelled from the spec: obs_ref_release of obs-internal.h; the
atomic decrement-and-test on the strong count, true exactly when the
count reaches zero. -/
def obs_ref_release (r : ObsWeakRef) : ObsWeakRef × Bool :=
  ({ r with refs := r.refs - 1 }, r.refs - 1 == 0)

/-- Modelled from the spec: obs_weak_ref_release of obs-internal.h; the
atomic decrement-and-test on the weak count, true exactly when the weak
count reaches zero (the caller then frees the control block). -/
def obs_weak_ref_release (r : ObsWeakRef) : ObsWeakRef × Bool :=
  ({ r with weak_refs := r.weak_refs - 1 }, r.weak_refs - 1 == 0)

/-! ### obs-stage.c operations -/

/-- Loop body of obs_stage_destroy lines 216-223: stop each active
output, then release the strong reference the collection held. -/
def destroyOutputsLoop (outs : List ObsOutput) : List OutputId → List ObsOutput × List Event
  | [] => (outs, [])
  | o :: rest =>
    let stopped := if obs_output_active outs o then (obs_output_stop outs o, [Event.outputStop o])
                   else (outs, [])
    let outs2 := obs_output_release stopped.1 o
    let next := destroyOutputsLoop outs2 rest
    (next.1, stopped.2 ++ [Event.outputRelease o] ++ next.2)

/-- obs_stage_destroy (lines 207-246): emit the destruction signal
(process-wide "stage_destroy" and per-object "destroy"), stop and
release all outputs under the outputs mutex, release the canvas, unlink
from the global stage list under the registry mutex, free the stage. -/
def obs_stage_destroy (core : ObsCore) (sid : Option StageId) : ObsCore × List Event :=
  match sid with
  | none => (core, [])
  | some id =>
    match findStage core id with
    | none => (core, [])
    | some st =>
      let t0 := [Event.destroyBegin id, Event.globalSignal "stage_destroy" id,
                 Event.stageSignal id "destroy"]
      let outsRes := destroyOutputsLoop core.outs st.outputs
      let core1 := updateStage { core with outs := outsRes.1 } id
                     (fun s => { s with outputs := [] })
      let t1 := [Event.lockOutputs id] ++ outsRes.2 ++ [Event.unlockOutputs id]
      let core2 := match st.canvas with
        | some _ => updateStage core1 id (fun s => { s with canvas := none })
        | none => core1
      let t2 := match st.canvas with
        | some _ => [Event.canvasRelease id]
        | none => []
      let core3 := { core2 with stages := core2.stages.eraseP (fun s => s.id == id) }
      let t3 := [Event.lockStages, Event.unlinkStage id, Event.unlockStages]
      (core3, t0 ++ t1 ++ t2 ++ t3 ++ [Event.freeStage id])

/-- obs_weak_stage_release (lines 90-97): decrement the weak count and
bfree the control block when it reaches zero. -/
def obs_weak_stage_release (core : ObsCore) (sid : Option StageId) : ObsCore × List Event :=
  match sid with
  | none => (core, [])
  | some id =>
    match lookupControl core id with
    | none => (core, [])
    | some r =>
      let rel := obs_weak_ref_release r
      if rel.2 then (eraseControl core id, [Event.weakRelease id, Event.freeControl id])
      else (setControl core id rel.1, [Event.weakRelease id])

/-- obs_stage_release (lines 64-80): drop one strong reference; when the
count reaches zero, destroy the stage and then release the implicit weak
reference the stage held on itself.  (The early-return branch for a shut
down core, lines 66-70, is outside the model: the core state is always
present here.) -/
def obs_stage_release (core : ObsCore) (sid : Option StageId) : ObsCore × List Event :=
  match sid with
  | none => (core, [])
  | some id =>
    match lookupControl core id with
    | none => (core, [])
    | some r =>
      let rel := obs_ref_release r
      let core1 := setControl core id rel.1
      if rel.2 then
        let d := obs_stage_destroy core1 (some id)
        let w := obs_weak_stage_release d.1 (some id)
        (w.1, d.2 ++ w.2)
      else (core1, [])

/-- obs_stage_create_internal (lines 131-190): allocate the stage,
initialize identity (the private flag suppresses the process-wide
creation signal), translate the MIX_AUDIO / EPHEMERAL stage flags to
canvas flags, create the canvas, establish the control block (one strong
reference, one implicit self weak reference), link at the head of the
global stage list under the registry mutex, and emit "stage_create" only
when not private.  In the model allocation, context initialization and
canvas creation succeed (their failure paths return null in C). -/
def obs_stage_create_internal (core : ObsCore) (name : String) (uuid : Option String)
    (ovi : ObsVideoInfo) (flags : Nat) (isPrivate : Bool) :
    ObsCore × Option StageId × List Event :=
  let id := core.nextId
  let canvas_flags :=
    (if flags &&& OBS_STAGE_MIX_AUDIO != 0 then MIX_AUDIO else 0) +
    (if flags &&& OBS_STAGE_EPHEMERAL != 0 then EPHEMERAL else 0)
  let stage : Stage :=
    { id := id, flags := flags, name := name, uuid := uuid, isPrivate := isPrivate,
      canvas := some { name := name, ovi := ovi, canvas_flags := canvas_flags },
      outputs := [] }
  let core1 : ObsCore :=
    { core with stages := stage :: core.stages,
                controls := (id, { refs := 1, weak_refs := 1 }) :: core.controls,
                nextId := core.nextId + 1 }
  let tr := [Event.lockStages, Event.unlockStages] ++
            (if isPrivate then [] else [Event.globalSignal "stage_create" id])
  (core1, some id, tr)

/-- obs_stage_create (lines 192-197): mask out OBS_STAGE_MAIN and create
a public stage.  The flags parameter is uint32_t, hence the % 2^32. -/
def obs_stage_create (core : ObsCore) (name : String) (ovi : ObsVideoInfo) (flags : Nat) :
    ObsCore × Option StageId × List Event :=
  let flags1 := (flags % UINT32_LIMIT) &&& NOT_MAIN_MASK
  obs_stage_create_internal core name none ovi flags1 false

/-- obs_stage_create_private (lines 199-205): mask out OBS_STAGE_MAIN
and create a private stage. -/
def obs_stage_create_private (core : ObsCore) (name : String) (ovi : ObsVideoInfo)
    (flags : Nat) : ObsCore × Option StageId × List Event :=
  let flags1 := (flags % UINT32_LIMIT) &&& NOT_MAIN_MASK
  obs_stage_create_internal core name none ovi flags1 true

/-- obs_stage_add_output (lines 250-280): under the outputs mutex,
reject a duplicate (identity scan) or a child whose strong reference
cannot be acquired; otherwise push the acquired reference at the end of
the array, and emit "output_add" after releasing the mutex. -/
def obs_stage_add_output (core : ObsCore) (sid : Option StageId) (out : Option OutputId) :
    ObsCore × Bool × List Event :=
  match sid, out with
  | some id, some o =>
    (match findStage core id with
     | none => (core, false, [])
     | some st =>
       if st.outputs.contains o then
         (core, false, [Event.lockOutputs id, Event.unlockOutputs id])
       else
         let acq := obs_output_get_ref core.outs o
         if acq.2 then
           (updateStage { core with outs := acq.1 } id
              (fun s => { s with outputs := s.outputs ++ [o] }),
            true,
            [Event.lockOutputs id, Event.unlockOutputs id,
             Event.outputSignal id "output_add" o])
         else
           (core, false, [Event.lockOutputs id, Event.unlockOutputs id]))
  | _, _ => (core, false, [])

/-- Loop of obs_stage_remove_output lines 289-304: scan for the first
slot holding this output; on a match stop it if active, emit
"output_remove" (still under the outputs mutex, as in the source),
release the held strong reference and erase the slot. -/
def removeOutputsLoop (outs : List ObsOutput) (sid : StageId) (target : OutputId) :
    List OutputId → List OutputId × List ObsOutput × Bool × List Event
  | [] => ([], outs, false, [])
  | o :: rest =>
    if o == target then
      let stopped := if obs_output_active outs o
                     then (obs_output_stop outs o, [Event.outputStop o])
                     else (outs, [])
      (rest, obs_output_release stopped.1 o, true,
       stopped.2 ++ [Event.outputSignal sid "output_remove" o, Event.outputRelease o])
    else
      let next := removeOutputsLoop outs sid target rest
      (o :: next.1, next.2.1, next.2.2.1, next.2.2.2)

/-- obs_stage_remove_output (lines 282-308): false when the output is
absent; otherwise stop-if-active, signal, release and erase the slot.
All of the loop, including the signal emission, runs between the lock
and the unlock of the outputs mutex. -/
def obs_stage_remove_output (core : ObsCore) (sid : Option StageId) (out : Option OutputId) :
    ObsCore × Bool × List Event :=
  match sid, out with
  | some id, some o =>
    (match findStage core id with
     | none => (core, false, [])
     | some st =>
       let res := removeOutputsLoop core.outs id o st.outputs
       if res.2.2.1 then
         (updateStage { core with outs := res.2.1 } id
            (fun s => { s with outputs := res.1 }),
          true,
          [Event.lockOutputs id] ++ res.2.2.2 ++ [Event.unlockOutputs id])
       else
         (core, false, [Event.lockOutputs id] ++ res.2.2.2 ++ [Event.unlockOutputs id]))
  | _, _ => (core, false, [])

/-- obs_stage_get_output_count (lines 310-316). -/
def obs_stage_get_output_count (stage : Option Stage) : Nat :=
  match stage with
  | none => 0
  | some st => st.outputs.length

/-- obs_stage_get_name (lines 450-455). -/
def obs_stage_get_name (stage : Option Stage) : Option String :=
  match stage with
  | none => none
  | some st => some st.name

/-- obs_stage_get_flags (lines 489-494). -/
def obs_stage_get_flags (stage : Option Stage) : Nat :=
  match stage with
  | none => 0
  | some st => st.flags

/-- obs_stage_set_name (lines 457-487): no-op for a null stage, a null
or empty name, a stage carrying OBS_STAGE_MAIN, or an unchanged name;
otherwise update the context name, rename the canvas too, emit the
per-object "rename" signal carrying the new and the previous name, and
the process-wide "stage_rename" only when the stage is not private. -/
def obs_stage_set_name (core : ObsCore) (sid : Option StageId) (name : Option String) :
    ObsCore × List Event :=
  match sid, name with
  | some id, some n =>
    (match findStage core id with
     | none => (core, [])
     | some st =>
       if n = "" then (core, [])
       else if st.flags &&& OBS_STAGE_MAIN != 0 then (core, [])
       else if n = st.name then (core, [])
       else
         (updateStage core id (fun s =>
            { s with name := n,
                     canvas := s.canvas.map (fun c => { c with name := n }) }),
          [Event.stageRename id n st.name] ++
          (if st.isPrivate then [] else [Event.globalRename id n st.name])))
  | _, _ => (core, [])

/-- Modelled from the spec: an obs_data record (obs-data.c is not under
src/), a flat mapping of the keys obs_save_stage writes; missing keys
read as zero or the empty string, so the record is a plain tuple of
defaulted fields. -/
structure ObsData where
  name : String := ""
  flags : Nat := 0
  base_width : Nat := 0
  base_height : Nat := 0
  output_width : Nat := 0
  output_height : Nat := 0
  fps_num : Nat := 0
  fps_den : Nat := 0
deriving DecidableEq, Repr

/-- obs_stage_get_video_info (lines 422-427), through the modelled
canvas configuration query. -/
def obs_stage_get_video_info (stage : Option Stage) : Option ObsVideoInfo :=
  match stage with
  | none => none
  | some st =>
    match st.canvas with
    | none => none
    | some cv => some cv.ovi

/-- obs_save_stage (lines 546-568): null for a null or ephemeral stage;
otherwise a record of the name, the flags and, when the video info query
succeeds, the six video configuration fields. -/
def obs_save_stage (stage : Option Stage) : Option ObsData :=
  match stage with
  | none => none
  | some st =>
    if st.flags &&& OBS_STAGE_EPHEMERAL != 0 then none
    else
      let d : ObsData := { name := st.name, flags := st.flags }
      match obs_stage_get_video_info (some st) with
      | some ovi =>
        some { d with base_width := ovi.base_width, base_height := ovi.base_height,
                      output_width := ovi.output_width, output_height := ovi.output_height,
                      fps_num := ovi.fps_num, fps_den := ovi.fps_den }
      | none => some d

/-- obs_load_stage (lines 570-588): read the record back (each int is
cast to uint32_t), strip OBS_STAGE_MAIN from the restored flags
unconditionally, and create a public stage. -/
def obs_load_stage (core : ObsCore) (data : Option ObsData) :
    ObsCore × Option StageId × List Event :=
  match data with
  | none => (core, none, [])
  | some d =>
    let ovi : ObsVideoInfo :=
      { base_width := d.base_width % UINT32_LIMIT,
        base_height := d.base_height % UINT32_LIMIT,
        output_width := d.output_width % UINT32_LIMIT,
        output_height := d.output_height % UINT32_LIMIT,
        fps_num := d.fps_num % UINT32_LIMIT,
        fps_den := d.fps_den % UINT32_LIMIT }
    let flags := (d.flags % UINT32_LIMIT) &&& NOT_MAIN_MASK
    obs_stage_create_internal core d.name none ovi flags false

/-- The enumeration walk of obs_enum_stages (lines 505-521): the list of
stage identities still to visit is the chain of captured next pointers,
computed before any callback runs; the callback receives the core (it
may call back into the API, e.g. destroy the current stage) and returns
false to stop early.  The walk returns the identities actually visited.
A stage unlinked before its turn is skipped (its pointer would dangle in
C).  The whole walk runs under the registry mutex. -/
def enumWalk (cb : ObsCore → Stage → ObsCore × Bool) (core : ObsCore) :
    List StageId → ObsCore × List StageId
  | [] => (core, [])
  | id :: rest =>
    match findStage core id with
    | none => enumWalk cb core rest
    | some st =>
      let r := cb core st
      if r.2 then
        let next := enumWalk cb r.1 rest
        (next.1, id :: next.2)
      else (r.1, [id])

/-- obs_enum_stages (lines 505-521). -/
def obs_enum_stages (cb : ObsCore → Stage → ObsCore × Bool) (core : ObsCore) :
    ObsCore × List StageId :=
  enumWalk cb core (core.stages.map (fun s => s.id))

/-- An enumeration callback that destroys the stage it is given and
continues the walk: the scenario of spec section 8. -/
def destroyCurrentCb (core : ObsCore) (st : Stage) : ObsCore × Bool :=
  ((obs_stage_destroy core (some st.id)).1, true)

/-- Loop of obs_free_stages lines 596-601: capture next, destroy the
current stage, continue at the captured next — all while the caller
still holds the registry mutex. -/
def freeStagesLoop (core : ObsCore) : List StageId → ObsCore × List Event
  | [] => (core, [])
  | id :: rest =>
    let d := obs_stage_destroy core (some id)
    let next := freeStagesLoop d.1 rest
    (next.1, d.2 ++ next.2)

/-- obs_free_stages (lines 592-605): lock the registry mutex, destroy
every node of the list (each obs_stage_destroy relocks the registry
mutex at lines 234-238 to unlink), reset first_stage, unlock. -/
def obs_free_stages (core : ObsCore) : ObsCore × List Event :=
  let walk := freeStagesLoop core (core.stages.map (fun s => s.id))
  ({ walk.1 with stages := [] },
   [Event.lockStages] ++ walk.2 ++ [Event.unlockStages])

/-! ### Trace observations -/

/-- Signal emissions of either bus. -/
def isSignalEmission : Event → Bool
  | Event.globalSignal _ _ => true
  | Event.stageSignal _ _ => true
  | Event.stageRename _ _ _ => true
  | Event.globalRename _ _ _ => true
  | Event.outputSignal _ _ _ => true
  | _ => false

/-- Process-wide (obs->signals) emissions. -/
def isGlobalEmission : Event → Bool
  | Event.globalSignal _ _ => true
  | Event.globalRename _ _ _ => true
  | _ => false

/-- Scan a trace tracking the hold depth of an outputs mutex: true when
some signal is emitted while the depth is positive. -/
def sigUnderOutputsLockAux (depth : Nat) : List Event → Bool
  | [] => false
  | e :: rest =>
    match e with
    | Event.lockOutputs _ => sigUnderOutputsLockAux (depth + 1) rest
    | Event.unlockOutputs _ => sigUnderOutputsLockAux (depth - 1) rest
    | _ => if isSignalEmission e && decide (0 < depth) then true
           else sigUnderOutputsLockAux depth rest

/-- True when the trace emits a signal while an outputs mutex is held. -/
def sigUnderOutputsLock (tr : List Event) : Bool :=
  sigUnderOutputsLockAux 0 tr

/-- Scan a trace tracking the hold depth of the registry mutex: true
when a stage destruction begins while the depth is positive. -/
def destroyUnderStagesLockAux (depth : Nat) : List Event → Bool
  | [] => false
  | e :: rest =>
    match e with
    | Event.lockStages => destroyUnderStagesLockAux (depth + 1) rest
    | Event.unlockStages => destroyUnderStagesLockAux (depth - 1) rest
    | Event.destroyBegin _ => if 0 < depth then true
                              else destroyUnderStagesLockAux depth rest
    | _ => destroyUnderStagesLockAux depth rest

/-- True when a stage destruction begins while the registry mutex is
held by the surrounding code. -/
def destroyUnderStagesLock (tr : List Event) : Bool :=
  destroyUnderStagesLockAux 0 tr

/-- The phase of an event inside an obs_stage_destroy trace: 0 the
destruction signal, 1 the outputs teardown, 2 the canvas release, 3 the
registry unlink, 4 the free, 5 anything after the stage object is gone
(weak control block operations). -/
def destroyPhase : Event → Nat
  | Event.destroyBegin _ => 0
  | Event.globalSignal _ _ => 0
  | Event.stageSignal _ _ => 0
  | Event.stageRename _ _ _ => 0
  | Event.globalRename _ _ _ => 0
  | Event.lockOutputs _ => 1
  | Event.unlockOutputs _ => 1
  | Event.outputStop _ => 1
  | Event.outputStart _ => 1
  | Event.outputRelease _ => 1
  | Event.outputSignal _ _ _ => 1
  | Event.canvasRelease _ => 2
  | Event.lockStages => 3
  | Event.unlinkStage _ => 3
  | Event.unlockStages => 3
  | Event.freeStage _ => 4
  | Event.weakRelease _ => 5
  | Event.freeControl _ => 5

/-! ### Concrete fixtures -/

/-- An empty obs core. -/
def core0 : ObsCore := { stages := [], controls := [], outs := [], nextId := 0 }

/-- A 1920x1080 at 30fps video configuration. -/
def ovi0 : ObsVideoInfo :=
  { base_width := 1920, base_height := 1080, output_width := 1280, output_height := 720,
    fps_num := 30, fps_den := 1 }

/-- A core holding one public stage named A (identity 0). -/
def coreA : ObsCore := (obs_stage_create core0 "A" ovi0 0).1

/-- A core holding one private stage named P (identity 0). -/
def coreP : ObsCore := (obs_stage_create_private core0 "P" ovi0 0).1

/-- A core holding one stage (identity 0) that owns an inactive output 7
and an active output 8; output 9 exists in the world but is not owned. -/
def coreOut : ObsCore :=
  { stages := [{ id := 0, flags := 0, name := "s", uuid := none, isPrivate := false,
                 canvas := some { name := "s", ovi := ovi0, canvas_flags := 0 },
                 outputs := [7, 8] }],
    controls := [(0, { refs := 1, weak_refs := 1 })],
    outs := [{ id := 7, active := false, refs := 1 }, { id := 8, active := true, refs := 1 },
             { id := 9, active := false, refs := 1 }],
    nextId := 1 }

/-- A core holding only a weak control block whose object is already
gone (strong count zero, one outstanding weak handle). -/
def coreDead : ObsCore :=
  { stages := [], controls := [(5, { refs := 0, weak_refs := 1 })], outs := [], nextId := 6 }

/-! ### Generic list lemmas -/

theorem find?_map_ite {α : Type} (p : α → Bool) (f : α → α) (l : List α)
    (hf : ∀ a, p a = true → p (f a) = true) :
    (l.map (fun a => if p a then f a else a)).find? p = (l.find? p).map f := by
  induction l with
  | nil => rfl
  | cons a l ih =>
    by_cases h : p a = true
    · simp [h, hf a h, List.find?_cons_of_pos]
    · have h' : p a = false := by simpa using h
      simp [h', List.find?_cons_of_neg, ih]

theorem map_ite_eq_self {α : Type} (p : α → Bool) (f : α → α) (l : List α)
    (h : ∀ a ∈ l, p a = false) :
    l.map (fun a => if p a then f a else a) = l := by
  induction l with
  | nil => rfl
  | cons a l ih =>
    have ha := h a (by simp)
    simp [ha, ih (fun x hx => h x (by simp [hx]))]

theorem countP_le_one_of_nodup {α : Type} (key : α → Nat) (l : List α) (id : Nat)
    (h : (l.map key).Nodup) : l.countP (fun a => key a == id) ≤ 1 := by
  induction l with
  | nil => simp
  | cons a l ih =>
    simp only [List.map_cons, List.nodup_cons] at h
    by_cases hk : key a = id
    · have hz : l.countP (fun a => key a == id) = 0 := by
        rw [List.countP_eq_zero]
        intro x hx
        simp only [beq_iff_eq]
        intro hxid
        exact h.1 (hk ▸ hxid ▸ List.mem_map_of_mem key hx)
      simp [List.countP_cons, hz, hk]
    · have h1 := ih h.2
      have hf : (key a == id) = false := by simp [hk]
      simp [List.countP_cons, hf]
      omega

theorem find?_eraseP_none {α : Type} (p : α → Bool) (l : List α)
    (h : l.countP p ≤ 1) : (l.eraseP p).find? p = none := by
  induction l with
  | nil => rfl
  | cons a l ih =>
    by_cases hp : p a = true
    · rw [List.eraseP_cons_of_pos hp, List.find?_eq_none]
      intro x hx hpx
      have h1 : 0 < l.countP p := List.countP_pos_iff.mpr ⟨x, hx, hpx⟩
      have h2 : (a :: l).countP p = l.countP p + 1 := by simp [List.countP_cons, hp]
      omega
    · have hp' : p a = false := by simpa using hp
      rw [List.eraseP_cons_of_neg (by simp [hp']), List.find?_cons_of_neg _ (by simp [hp'])]
      apply ih
      have h2 : (a :: l).countP p = l.countP p := by simp [List.countP_cons, hp']
      omega

/-! ### Bit-level lemmas about the flag masks -/

theorem testBit_one_succ (i : Nat) : Nat.testBit 1 (i + 1) = false := by
  rw [Nat.testBit_succ]
  simp [Nat.zero_testBit]

/-- Clearing the OBS_STAGE_MAIN bit really leaves it cleared. -/
theorem land_notMain_main (f : Nat) : (f &&& NOT_MAIN_MASK) &&& OBS_STAGE_MAIN = 0 := by
  apply Nat.eq_of_testBit_eq
  intro i
  rw [Nat.testBit_land, Nat.testBit_land, Nat.zero_testBit]
  cases i with
  | zero =>
    have hm : Nat.testBit NOT_MAIN_MASK 0 = false := by decide
    simp [hm]
  | succ i =>
    have hm : Nat.testBit OBS_STAGE_MAIN (i + 1) = false := testBit_one_succ i
    simp [hm]

/-! ### Dereferencing lemmas -/

theorem findStage_set_outs (core : ObsCore) (outs : List ObsOutput) (id : StageId) :
    findStage { core with outs := outs } id = findStage core id := rfl

theorem findStage_updateStage (core : ObsCore) (id : StageId) (f : Stage → Stage)
    (hf : ∀ s, (f s).id = s.id) :
    findStage (updateStage core id f) id = (findStage core id).map f := by
  unfold findStage updateStage
  exact find?_map_ite (fun s => s.id == id) f core.stages
    (fun a ha => by simpa [hf] using ha)

theorem findOut_updateOut (outs : List ObsOutput) (o : OutputId) (f : ObsOutput → ObsOutput)
    (hf : ∀ x, (f x).id = x.id) :
    findOut (updateOut outs o f) o = (findOut outs o).map f := by
  unfold findOut updateOut
  exact find?_map_ite (fun x => x.id == o) f outs
    (fun a ha => by simpa [hf] using ha)

theorem find?_pairs_set (l : List (StageId × ObsWeakRef)) (id : StageId) (r : ObsWeakRef) :
    (l.map (fun c => if c.fst == id then (id, r) else c)).find? (fun c => c.fst == id)
      = (l.find? (fun c => c.fst == id)).map (fun _ => (id, r)) := by
  induction l with
  | nil => rfl
  | cons a l ih =>
    by_cases hk : (a.fst == id) = true
    · have h1 : (a :: l).find? (fun c => c.fst == id) = some a :=
        List.find?_cons_of_pos _ hk
      have h2 : (((id, r) : StageId × ObsWeakRef) ::
          (l.map fun c => if c.fst == id then (id, r) else c)).find?
            (fun c => c.fst == id) = some (id, r) :=
        List.find?_cons_of_pos _ (by simp)
      rw [List.map_cons, if_pos hk, h2, h1]
      rfl
    · have hk' : (a.fst == id) = false := by simpa using hk
      rw [List.map_cons, if_neg (by simp [hk']), List.find?_cons_of_neg _ (by simp [hk']),
        List.find?_cons_of_neg _ (by simp [hk']), ih]

theorem lookupControl_setControl (core : ObsCore) (id : StageId) (r r₀ : ObsWeakRef)
    (h : lookupControl core id = some r₀) :
    lookupControl (setControl core id r) id = some r := by
  unfold lookupControl setControl
  unfold lookupControl at h
  rw [find?_pairs_set]
  rcases hc : core.controls.find? (fun c => c.fst == id) with _ | c
  · rw [hc] at h; simp at h
  · rw [hc]; rfl

/-! ### C10: every public creation path clears the primary bit -/

/-- C10: obs_stage_create, obs_stage_create_private and obs_load_stage
all mask OBS_STAGE_MAIN out of the requested flags, so the created stage
is found in the registry with a flags value whose OBS_STAGE_MAIN bit is
zero, obs_stage_get_flags reports that value, and the primary-rename
guard test of obs_stage_set_name is false for it. -/
theorem C10_creation_clears_main :
    (∀ core name ovi flags, ∃ id,
      (obs_stage_create core name ovi flags).2.1 = some id ∧
      (findStage (obs_stage_create core name ovi flags).1 id).isSome = true ∧
      obs_stage_get_flags (findStage (obs_stage_create core name ovi flags).1 id) &&&
        OBS_STAGE_MAIN = 0) ∧
    (∀ core name ovi flags, ∃ id,
      (obs_stage_create_private core name ovi flags).2.1 = some id ∧
      (findStage (obs_stage_create_private core name ovi flags).1 id).isSome = true ∧
      obs_stage_get_flags (findStage (obs_stage_create_private core name ovi flags).1 id) &&&
        OBS_STAGE_MAIN = 0) ∧
    (∀ core d, ∃ id,
      (obs_load_stage core (some d)).2.1 = some id ∧
      (findStage (obs_load_stage core (some d)).1 id).isSome = true ∧
      obs_stage_get_flags (findStage (obs_load_stage core (some d)).1 id) &&&
        OBS_STAGE_MAIN = 0) := by
  refine ⟨?_, ?_, ?_⟩
  · intro core name ovi flags
    refine ⟨core.nextId, rfl, ?_, ?_⟩
    · simp [obs_stage_create, obs_stage_create_internal, findStage]
    · simpa [obs_stage_create, obs_stage_create_internal, findStage, obs_stage_get_flags]
        using land_notMain_main (flags % UINT32_LIMIT)
  · intro core name ovi flags
    refine ⟨core.nextId, rfl, ?_, ?_⟩
    · simp [obs_stage_create_private, obs_stage_create_internal, findStage]
    · simpa [obs_stage_create_private, obs_stage_create_internal, findStage, obs_stage_get_flags]
        using land_notMain_main (flags % UINT32_LIMIT)
  · intro core d
    refine ⟨core.nextId, rfl, ?_, ?_⟩
    · simp [obs_load_stage, obs_stage_create_internal, findStage]
    · simpa [obs_load_stage, obs_stage_create_internal, findStage, obs_stage_get_flags]
        using land_notMain_main (d.flags % UINT32_LIMIT)

/-! ### C8: add twice -/

/-- C8: for a live stage and an output which is not yet in the
collection and whose strong reference can be acquired,
obs_stage_add_output returns true and grows the collection by exactly
one (the output is appended); an immediately repeated add of the same
output returns false and leaves the whole core state unchanged. -/
theorem C8_add_then_add (core : ObsCore) (id : StageId) (st : Stage) (o : OutputId)
    (rec : ObsOutput)
    (hst : findStage core id = some st)
    (ho : findOut core.outs o = some rec)
    (hrefs : 0 < rec.refs)
    (hnotin : o ∉ st.outputs) :
    (obs_stage_add_output core (some id) (some o)).2.1 = true ∧
    findStage (obs_stage_add_output core (some id) (some o)).1 id =
      some { st with outputs := st.outputs ++ [o] } ∧
    obs_stage_get_output_count
        (findStage (obs_stage_add_output core (some id) (some o)).1 id) =
      obs_stage_get_output_count (findStage core id) + 1 ∧
    (obs_stage_add_output (obs_stage_add_output core (some id) (some o)).1
        (some id) (some o)).2.1 = false ∧
    (obs_stage_add_output (obs_stage_add_output core (some id) (some o)).1
        (some id) (some o)).1 =
      (obs_stage_add_output core (some id) (some o)).1 := by
  have hcontains : st.outputs.contains o = false := by
    simpa using hnotin
  have hacq : obs_output_get_ref core.outs o =
      (updateOut core.outs o (fun y => { y with refs := y.refs + 1 }), true) := by
    unfold obs_output_get_ref
    rw [ho]
    simp [hrefs]
  have hres : obs_stage_add_output core (some id) (some o) =
      (updateStage { core with outs := (obs_output_get_ref core.outs o).1 } id
         (fun s => { s with outputs := s.outputs ++ [o] }),
       true,
       [Event.lockOutputs id, Event.unlockOutputs id, Event.outputSignal id "output_add" o]) := by
    simp only [obs_stage_add_output, hst, hcontains, hacq]
    simp
  have hfind1 : findStage (obs_stage_add_output core (some id) (some o)).1 id =
      some { st with outputs := st.outputs ++ [o] } := by
    rw [hres]
    rw [findStage_updateStage _ _ (fun s => { s with outputs := s.outputs ++ [o] })
      (fun s => rfl), findStage_set_outs, hst]
    rfl
  have hctrue : (st.outputs ++ [o]).contains o = true := by simp
  refine ⟨by rw [hres], hfind1, ?_, ?_, ?_⟩
  · rw [hfind1, hst]
    simp [obs_stage_get_output_count]
  · generalize hc1 : (obs_stage_add_output core (some id) (some o)).1 = c1 at hfind1 ⊢
    simp only [obs_stage_add_output, hfind1, hctrue]
    simp
  · generalize hc1 : (obs_stage_add_output core (some id) (some o)).1 = c1 at hfind1 ⊢
    simp only [obs_stage_add_output, hfind1, hctrue]
    simp

/-- Witness for C8 at a concrete core: output 9 is in the world, alive,
and not owned by stage 0 of coreOut. -/
theorem C8_add_then_add_witness :
    (obs_stage_add_output coreOut (some 0) (some 9)).2.1 = true ∧
    (obs_stage_add_output (obs_stage_add_output coreOut (some 0) (some 9)).1
        (some 0) (some 9)).2.1 = false := by
  have h := C8_add_then_add coreOut 0
    { id := 0, flags := 0, name := "s", uuid := none, isPrivate := false,
      canvas := some { name := "s", ovi := ovi0, canvas_flags := 0 },
      outputs := [7, 8] }
    9 { id := 9, active := false, refs := 1 } rfl rfl (by decide) (by decide)
  exact ⟨h.1, h.2.2.2.1⟩

/-! ### C7: remove present / absent -/

theorem removeLoop_not_mem (outs : List ObsOutput) (sid : StageId) (t : OutputId)
    (l : List OutputId) (h : t ∉ l) :
    removeOutputsLoop outs sid t l = (l, outs, false, []) := by
  induction l with
  | nil => rfl
  | cons o rest ih =>
    have h1 : (o == t) = false := by
      simp only [beq_eq_false_iff_ne, ne_eq]
      intro he
      exact h (he ▸ List.mem_cons_self o rest)
    have h2 : t ∉ rest := fun hm => h (List.mem_cons_of_mem o hm)
    unfold removeOutputsLoop
    rw [h1]
    simp [ih h2]

theorem removeLoop_found (outs : List ObsOutput) (sid : StageId) (t : OutputId)
    (pre post : List OutputId) (hpre : t ∉ pre) :
    removeOutputsLoop outs sid t (pre ++ t :: post) =
      (pre ++ post,
       obs_output_release
         (if obs_output_active outs t then obs_output_stop outs t else outs) t,
       true,
       (if obs_output_active outs t then [Event.outputStop t] else []) ++
         [Event.outputSignal sid "output_remove" t, Event.outputRelease t]) := by
  induction pre with
  | nil =>
    by_cases hA : obs_output_active outs t = true
    · simp [removeOutputsLoop, hA]
    · have hA' : obs_output_active outs t = false := by simpa using hA
      simp [removeOutputsLoop, hA']
  | cons a pre ih =>
    have h1 : (a == t) = false := by
      simp only [beq_eq_false_iff_ne, ne_eq]
      intro he
      exact hpre (he ▸ List.mem_cons_self a pre)
    have h2 : t ∉ pre := fun hm => hpre (List.mem_cons_of_mem a hm)
    unfold removeOutputsLoop
    simp only [List.cons_append, h1]
    rw [ih h2]
    simp

/-- C7: removing an absent output returns false and changes nothing;
removing a present output returns true, stops it first when it is
active (final active state false, with the stop step recorded exactly
when it was active and ordered before the release), drops exactly the
one strong reference the collection held, erases exactly that slot (the
count drops by one and the relative order of the survivors is
preserved). -/
theorem C7_remove_output (core : ObsCore) (id : StageId) (st : Stage) (o : OutputId)
    (hst : findStage core id = some st) :
    (o ∉ st.outputs →
      (obs_stage_remove_output core (some id) (some o)).2.1 = false ∧
      (obs_stage_remove_output core (some id) (some o)).1 = core) ∧
    (∀ pre post, st.outputs = pre ++ o :: post → o ∉ pre →
      ∀ rec, findOut core.outs o = some rec →
      (obs_stage_remove_output core (some id) (some o)).2.1 = true ∧
      findStage (obs_stage_remove_output core (some id) (some o)).1 id =
        some { st with outputs := pre ++ post } ∧
      obs_stage_get_output_count
          (findStage (obs_stage_remove_output core (some id) (some o)).1 id) + 1 =
        obs_stage_get_output_count (findStage core id) ∧
      findOut (obs_stage_remove_output core (some id) (some o)).1.outs o =
        some { rec with active := false, refs := rec.refs - 1 } ∧
      (obs_stage_remove_output core (some id) (some o)).2.2 =
        [Event.lockOutputs id] ++
        (if rec.active then [Event.outputStop o] else []) ++
        [Event.outputSignal id "output_remove" o, Event.outputRelease o,
         Event.unlockOutputs id]) := by
  constructor
  · intro hno
    simp only [obs_stage_remove_output, hst, removeLoop_not_mem core.outs id o st.outputs hno]
    simp
  · intro pre post hsplit hpre rec hrec
    have hact : obs_output_active core.outs o = rec.active := by
      unfold obs_output_active
      rw [hrec]
      rfl
    have hloop := removeLoop_found core.outs id o pre post hpre
    have hres : obs_stage_remove_output core (some id) (some o) =
        (updateStage
           { core with outs := (obs_output_release
               (if obs_output_active core.outs o then obs_output_stop core.outs o
                else core.outs) o) } id
           (fun s => { s with outputs := pre ++ post }),
         true,
         [Event.lockOutputs id] ++
           ((if obs_output_active core.outs o then [Event.outputStop o] else []) ++
            [Event.outputSignal id "output_remove" o, Event.outputRelease o]) ++
           [Event.unlockOutputs id]) := by
      simp only [obs_stage_remove_output, hst, hsplit, hloop]
      simp
    have hfind1 : findStage (obs_stage_remove_output core (some id) (some o)).1 id =
        some { st with outputs := pre ++ post } := by
      rw [hres]
      rw [findStage_updateStage _ _ (fun s => { s with outputs := pre ++ post })
        (fun s => rfl), findStage_set_outs, hst]
      rfl
    refine ⟨by rw [hres], hfind1, ?_, ?_, ?_⟩
    · rw [hfind1, hst]
      simp [obs_stage_get_output_count, hsplit]
      omega
    · rw [hres]
      show findOut (obs_output_release
          (if obs_output_active core.outs o then obs_output_stop core.outs o
           else core.outs) o) o = _
      by_cases hA : rec.active = true
      · rw [hact, hA]
        rw [if_pos rfl]
        unfold obs_output_release obs_output_stop
        rw [findOut_updateOut _ _ (fun x => { x with refs := x.refs - 1 }) (fun x => rfl),
          findOut_updateOut _ _ (fun x => { x with active := false }) (fun x => rfl),
          hrec]
        simp [hA]
      · have hA' : rec.active = false := by simpa using hA
        rw [hact, hA']
        rw [if_neg (by simp)]
        unfold obs_output_release
        rw [findOut_updateOut _ _ (fun x => { x with refs := x.refs - 1 }) (fun x => rfl), hrec]
        cases rec
        simp_all
    · rw [hres, hact]
      by_cases hA : rec.active = true
      · simp [hA]
      · have hA' : rec.active = false := by simpa using hA
        simp [hA']

/-- Witness for C7 at coreOut: removing the active owned output 8
succeeds; removing the unowned output 9 fails. -/
theorem C7_remove_output_witness :
    (obs_stage_remove_output coreOut (some 0) (some 8)).2.1 = true ∧
    (obs_stage_remove_output coreOut (some 0) (some 9)).2.1 = false := by
  constructor
  · have h := (C7_remove_output coreOut 0
      { id := 0, flags := 0, name := "s", uuid := none, isPrivate := false,
        canvas := some { name := "s", ovi := ovi0, canvas_flags := 0 },
        outputs := [7, 8] } 8 rfl).2 [7] [] rfl (by decide)
      { id := 8, active := true, refs := 1 } rfl
    exact h.1
  · have h := (C7_remove_output coreOut 0
      { id := 0, flags := 0, name := "s", uuid := none, isPrivate := false,
        canvas := some { name := "s", ovi := ovi0, canvas_flags := 0 },
        outputs := [7, 8] } 9 rfl).1 (by decide)
    exact h.1

/-! ### C6: rename -/

/-- C6: obs_stage_set_name is a no-op (state unchanged, no signal) for a
null stage, a null or empty name, a stage carrying OBS_STAGE_MAIN, or an
unchanged name; otherwise it updates the stage name, propagates it to
the bound canvas, and the emitted trace is exactly one per-object rename
signal carrying the new and the previous name, followed by the
process-wide stage_rename exactly when the stage is not private. -/
theorem C6_set_name (core : ObsCore) (id : StageId) (st : Stage) (n : String)
    (hst : findStage core id = some st) :
    (obs_stage_set_name core none (some n) = (core, [])) ∧
    (∀ sid, obs_stage_set_name core sid none = (core, [])) ∧
    (obs_stage_set_name core (some id) (some "") = (core, [])) ∧
    (st.flags &&& OBS_STAGE_MAIN ≠ 0 →
      obs_stage_set_name core (some id) (some n) = (core, [])) ∧
    (n = st.name → obs_stage_set_name core (some id) (some n) = (core, [])) ∧
    (n ≠ "" → st.flags &&& OBS_STAGE_MAIN = 0 → n ≠ st.name →
      obs_stage_set_name core (some id) (some n) =
        (updateStage core id (fun s =>
           { s with name := n, canvas := s.canvas.map (fun c => { c with name := n }) }),
         [Event.stageRename id n st.name] ++
           (if st.isPrivate then [] else [Event.globalRename id n st.name])) ∧
      findStage (obs_stage_set_name core (some id) (some n)).1 id =
        some { st with name := n,
                       canvas := st.canvas.map (fun c => { c with name := n }) }) := by
  refine ⟨rfl, ?_, ?_, ?_, ?_, ?_⟩
  · intro sid
    cases sid <;> rfl
  · simp [obs_stage_set_name, hst]
  · intro hmain
    by_cases hn : n = ""
    · simp [obs_stage_set_name, hst, hn]
    · have hm : (st.flags &&& OBS_STAGE_MAIN != 0) = true := by
        simpa using hmain
      simp [obs_stage_set_name, hst, hn, hm]
  · intro heq
    by_cases hn : n = ""
    · simp [obs_stage_set_name, hst, hn]
    · by_cases hmain : st.flags &&& OBS_STAGE_MAIN ≠ 0
      · have hm : (st.flags &&& OBS_STAGE_MAIN != 0) = true := by
          simpa using hmain
        simp [obs_stage_set_name, hst, hn, hm]
      · have hm : (st.flags &&& OBS_STAGE_MAIN != 0) = false := by
          simpa using hmain
        simp [obs_stage_set_name, hst, hn, hm, heq]
  · intro hn hmain hne
    have hm : (st.flags &&& OBS_STAGE_MAIN != 0) = false := by
      simpa using hmain
    have hres : obs_stage_set_name core (some id) (some n) =
        (updateStage core id (fun s =>
           { s with name := n, canvas := s.canvas.map (fun c => { c with name := n }) }),
         [Event.stageRename id n st.name] ++
           (if st.isPrivate then [] else [Event.globalRename id n st.name])) := by
      simp [obs_stage_set_name, hst, hn, hm, hne]
    refine ⟨hres, ?_⟩
    rw [hres]
    rw [findStage_updateStage _ _ (fun s =>
      { s with name := n, canvas := s.canvas.map (fun c => { c with name := n }) })
      (fun s => rfl), hst]
    rfl

/-- The stage held by coreA (flags 0, public, named A). -/
def stageA : Stage :=
  { id := 0, flags := 0, name := "A", uuid := none, isPrivate := false,
    canvas := some { name := "A", ovi := ovi0, canvas_flags := 0 }, outputs := [] }

/-- Witness for C6 at coreA: renaming A to B fires the two rename
signals with the right names; renaming A to A is a no-op. -/
theorem C6_set_name_witness :
    (obs_stage_set_name coreA (some 0) (some "B")).2 =
      [Event.stageRename 0 "B" "A", Event.globalRename 0 "B" "A"] ∧
    obs_stage_set_name coreA (some 0) (some "A") = (coreA, []) := by
  have h := C6_set_name coreA 0 stageA "B" rfl
  have h2 := C6_set_name coreA 0 stageA "A" rfl
  constructor
  · have hmain := (h.2.2.2.2.2 (by decide) (by decide) (by decide)).1
    rw [hmain]
    rfl
  · exact h2.2.2.2.2.1 rfl

/-! ### C3 (corrected): what the private flag does and does not suppress -/

/-- C3 counterexample: coreP holds a private, non-ephemeral stage; its
destruction does emit a process-wide signal, and obs_save_stage does not
return null on it — refuting the claim as stated. -/
theorem C3_private_counterexample :
    ((obs_stage_destroy coreP (some 0)).2.any isGlobalEmission) = true ∧
    obs_save_stage (findStage coreP 0) ≠ none := by
  constructor
  · rfl
  · decide

/-- C3 (amended): creating or renaming a private stage emits no
process-wide signal; the process-wide stage_destroy signal is emitted
for every stage, private or not; and obs_save_stage returns null exactly
for a null stage or one carrying OBS_STAGE_EPHEMERAL (a private
non-ephemeral stage is still saved). -/
theorem C3_private_behavior :
    (∀ core name ovi flags,
      (obs_stage_create_private core name ovi flags).2.2.all
        (fun e => !isGlobalEmission e) = true) ∧
    (∀ core id st n, findStage core id = some st → st.isPrivate = true →
      (obs_stage_set_name core (some id) (some n)).2.all
        (fun e => !isGlobalEmission e) = true) ∧
    (∀ core id st, findStage core id = some st →
      Event.globalSignal "stage_destroy" id ∈ (obs_stage_destroy core (some id)).2) ∧
    (∀ stage : Option Stage, obs_save_stage stage = none ↔
      (stage = none ∨ ∃ st, stage = some st ∧ st.flags &&& OBS_STAGE_EPHEMERAL ≠ 0)) := by
  refine ⟨?_, ?_, ?_, ?_⟩
  · intro core name ovi flags
    rfl
  · intro core id st n hst hpriv
    by_cases hn : n = ""
    · simp [obs_stage_set_name, hst, hn]
    · by_cases hmain : st.flags &&& OBS_STAGE_MAIN ≠ 0
      · have hm : (st.flags &&& OBS_STAGE_MAIN != 0) = true := by simpa using hmain
        simp [obs_stage_set_name, hst, hn, hm]
      · have hm : (st.flags &&& OBS_STAGE_MAIN != 0) = false := by simpa using hmain
        by_cases hne : n = st.name
        · simp [obs_stage_set_name, hst, hn, hm, hne]
        · simp [obs_stage_set_name, hst, hn, hm, hne, hpriv, isGlobalEmission]
  · intro core id st hst
    simp only [obs_stage_destroy, hst]
    cases st.canvas <;> simp
  · intro stage
    cases stage with
    | none => simp [obs_save_stage]
    | some st =>
      by_cases heph : st.flags &&& OBS_STAGE_EPHEMERAL ≠ 0
      · have hb : (st.flags &&& OBS_STAGE_EPHEMERAL != 0) = true := by simpa using heph
        simp [obs_save_stage, hb, heph]
      · have hb : (st.flags &&& OBS_STAGE_EPHEMERAL != 0) = false := by simpa using heph
        cases hc : st.canvas <;>
          simp [obs_save_stage, hb, heph, obs_stage_get_video_info, hc]

/-- The stage held by coreP (flags 0, private, named P). -/
def stageP : Stage :=
  { id := 0, flags := 0, name := "P", uuid := none, isPrivate := true,
    canvas := some { name := "P", ovi := ovi0, canvas_flags := 0 }, outputs := [] }

/-- Witness for C3 (amended) at concrete inputs: renaming the private
stage of coreP emits no process-wide signal, its destruction emits the
process-wide stage_destroy signal, and saving it does not return null. -/
theorem C3_private_behavior_witness :
    (obs_stage_set_name coreP (some 0) (some "Q")).2.all
      (fun e => !isGlobalEmission e) = true ∧
    Event.globalSignal "stage_destroy" 0 ∈ (obs_stage_destroy coreP (some 0)).2 ∧
    ¬ (obs_save_stage (some stageP) = none) := by
  refine ⟨?_, ?_, ?_⟩
  · exact C3_private_behavior.2.1 coreP 0 stageP "Q" rfl rfl
  · exact C3_private_behavior.2.2.1 coreP 0 stageP rfl
  · intro hnone
    have h := (C3_private_behavior.2.2.2 (some stageP)).mp hnone
    rcases h with h | ⟨st, hst, hf⟩
    · exact Option.noConfusion h
    · injection hst with h
      rw [← h] at hf
      exact hf (by decide)

/-! ### C4 (corrected): signal emission versus the outputs mutex -/

/-- C4 counterexample: at coreOut, removing the present output 8 emits
output_remove while the outputs mutex is still held — refuting the claim
that both add and remove only signal after releasing the mutex. -/
theorem C4_remove_signals_under_lock :
    sigUnderOutputsLock (obs_stage_remove_output coreOut (some 0) (some 8)).2.2 = true := by
  rfl

theorem removeLoop_sig_in_lock (sid : StageId) (t : OutputId) (l : List OutputId)
    (outs : List ObsOutput) (r : List Event) (d : Nat) (hd : 0 < d)
    (hfound : (removeOutputsLoop outs sid t l).2.2.1 = true) :
    sigUnderOutputsLockAux d ((removeOutputsLoop outs sid t l).2.2.2 ++ r) = true := by
  induction l generalizing outs with
  | nil => simp [removeOutputsLoop] at hfound
  | cons o rest ih =>
    by_cases he : (o == t) = true
    · by_cases hA : obs_output_active outs o = true
      · simp [removeOutputsLoop, he, hA, sigUnderOutputsLockAux, isSignalEmission, hd]
      · have hA' : obs_output_active outs o = false := by simpa using hA
        simp [removeOutputsLoop, he, hA', sigUnderOutputsLockAux, isSignalEmission, hd]
    · have he' : (o == t) = false := by simpa using he
      have hfound' : (removeOutputsLoop outs sid t rest).2.2.1 = true := by
        simpa [removeOutputsLoop, he'] using hfound
      simpa [removeOutputsLoop, he'] using ih outs hfound'

/-- C4 (amended): obs_stage_add_output never emits a signal while the
outputs mutex is held (output_add fires only after the unlock), but
every successful obs_stage_remove_output emits output_remove while still
holding the outputs mutex. -/
theorem C4_signal_lock_discipline :
    (∀ core sid out,
      sigUnderOutputsLock (obs_stage_add_output core sid out).2.2 = false) ∧
    (∀ core sid out, (obs_stage_remove_output core sid out).2.1 = true →
      sigUnderOutputsLock (obs_stage_remove_output core sid out).2.2 = true) := by
  constructor
  · intro core sid out
    match sid, out with
    | none, none => rfl
    | none, some o => rfl
    | some id, none => rfl
    | some id, some o =>
      rcases hst : findStage core id with _ | st
      · simp [obs_stage_add_output, hst, sigUnderOutputsLock, sigUnderOutputsLockAux]
      · by_cases hc : o ∈ st.outputs
        · simp [obs_stage_add_output, hst, hc, sigUnderOutputsLock,
            sigUnderOutputsLockAux, isSignalEmission]
        · rcases hacq : obs_output_get_ref core.outs o with ⟨outs2, b⟩
          cases b
          · simp [obs_stage_add_output, hst, hc, hacq, sigUnderOutputsLock,
              sigUnderOutputsLockAux, isSignalEmission]
          · simp [obs_stage_add_output, hst, hc, hacq, sigUnderOutputsLock,
              sigUnderOutputsLockAux, isSignalEmission]
  · intro core sid out h
    match sid, out with
    | none, none => simp [obs_stage_remove_output] at h
    | none, some o => simp [obs_stage_remove_output] at h
    | some id, none => simp [obs_stage_remove_output] at h
    | some id, some o =>
      rcases hst : findStage core id with _ | st
      · rw [show obs_stage_remove_output core (some id) (some o) = (core, false, [])
            from by simp [obs_stage_remove_output, hst]] at h
        simp at h
      · by_cases hfound : (removeOutputsLoop core.outs id o st.outputs).2.2.1 = true
        · have htr : (obs_stage_remove_output core (some id) (some o)).2.2 =
              [Event.lockOutputs id] ++ (removeOutputsLoop core.outs id o st.outputs).2.2.2 ++
              [Event.unlockOutputs id] := by
            simp [obs_stage_remove_output, hst, hfound]
          rw [htr]
          show sigUnderOutputsLockAux 0 _ = true
          rw [List.append_assoc]
          simp only [List.cons_append, List.nil_append]
          rw [show sigUnderOutputsLockAux 0 (Event.lockOutputs id ::
              ((removeOutputsLoop core.outs id o st.outputs).2.2.2 ++ [Event.unlockOutputs id])) =
              sigUnderOutputsLockAux 1 ((removeOutputsLoop core.outs id o st.outputs).2.2.2 ++
                [Event.unlockOutputs id]) from rfl]
          exact removeLoop_sig_in_lock id o st.outputs core.outs _ 1 (by decide) hfound
        · have hfound' : (removeOutputsLoop core.outs id o st.outputs).2.2.1 = false := by
            simpa using hfound
          rw [show (obs_stage_remove_output core (some id) (some o)).2.1 = false
              from by simp [obs_stage_remove_output, hst, hfound']] at h
          simp at h

/-- Witness for C4 (amended) at concrete inputs: adding output 9 to
coreOut signals only outside the lock, removing output 8 signals inside
it. -/
theorem C4_signal_lock_discipline_witness :
    sigUnderOutputsLock (obs_stage_add_output coreOut (some 0) (some 9)).2.2 = false ∧
    sigUnderOutputsLock (obs_stage_remove_output coreOut (some 0) (some 8)).2.2 = true := by
  constructor
  · exact C4_signal_lock_discipline.1 coreOut (some 0) (some 9)
  · exact C4_signal_lock_discipline.2 coreOut (some 0) (some 8) rfl

/-! ### The shape of a destroy trace -/

theorem destroy_trace_eq (core : ObsCore) (id : StageId) (st : Stage)
    (hst : findStage core id = some st) :
    (obs_stage_destroy core (some id)).2 =
      [Event.destroyBegin id, Event.globalSignal "stage_destroy" id,
       Event.stageSignal id "destroy"] ++
      ([Event.lockOutputs id] ++ (destroyOutputsLoop core.outs st.outputs).2 ++
       [Event.unlockOutputs id]) ++
      (match st.canvas with | some _ => [Event.canvasRelease id] | none => []) ++
      [Event.lockStages, Event.unlinkStage id, Event.unlockStages] ++
      [Event.freeStage id] := by
  simp only [obs_stage_destroy, hst]

theorem destroy_controls (core : ObsCore) (sid : Option StageId) :
    (obs_stage_destroy core sid).1.controls = core.controls := by
  match sid with
  | none => rfl
  | some id =>
    rcases hst : findStage core id with _ | st
    · simp [obs_stage_destroy, hst]
    · simp only [obs_stage_destroy, hst]
      cases st.canvas <;> simp [updateStage]

theorem findStage_setControl (core : ObsCore) (id sid : StageId) (r : ObsWeakRef) :
    findStage (setControl core id r) sid = findStage core sid := rfl

theorem destroyOutputsLoop_cons (outs : List ObsOutput) (o : OutputId)
    (rest : List OutputId) :
    destroyOutputsLoop outs (o :: rest) =
      ((destroyOutputsLoop (obs_output_release
          (if obs_output_active outs o then obs_output_stop outs o else outs) o) rest).1,
       (if obs_output_active outs o then [Event.outputStop o] else []) ++
         [Event.outputRelease o] ++
         (destroyOutputsLoop (obs_output_release
            (if obs_output_active outs o then obs_output_stop outs o else outs) o) rest).2) := by
  by_cases hA : obs_output_active outs o = true
  · simp [destroyOutputsLoop, hA]
  · have hA2 : obs_output_active outs o = false := by simpa using hA
    simp [destroyOutputsLoop, hA2]

theorem destroyOutputsLoop_phase (l : List OutputId) :
    ∀ outs, ∀ e ∈ (destroyOutputsLoop outs l).2, destroyPhase e = 1 := by
  induction l with
  | nil =>
    intro outs e he
    exact absurd he (List.not_mem_nil e)
  | cons o rest ih =>
    intro outs e he
    rw [destroyOutputsLoop_cons] at he
    rcases List.mem_append.mp he with he1 | he2
    · rcases List.mem_append.mp he1 with he3 | he4
      · by_cases hA : obs_output_active outs o = true
        · rw [if_pos hA] at he3
          simp only [List.mem_cons, List.not_mem_nil, or_false] at he3
          rw [he3]; rfl
        · rw [if_neg hA] at he3
          exact absurd he3 (List.not_mem_nil e)
      · simp only [List.mem_cons, List.not_mem_nil, or_false] at he4
        rw [he4]; rfl
    · exact ih _ e he2

theorem destroyOutputsLoop_release_mem (l : List OutputId) :
    ∀ outs, ∀ o ∈ l, Event.outputRelease o ∈ (destroyOutputsLoop outs l).2 := by
  induction l with
  | nil => intro outs o ho; simp at ho
  | cons a rest ih =>
    intro outs o ho
    rw [destroyOutputsLoop_cons]
    rcases List.mem_cons.mp ho with rfl | ho
    · exact List.mem_append.mpr (Or.inl (List.mem_append.mpr (Or.inr (by simp))))
    · exact List.mem_append.mpr (Or.inr (ih _ o ho))

/-- Phase monotonicity: a trace whose events occur in nondecreasing
destroy-phase order. -/
def phaseMono (tr : List Event) : Prop :=
  List.Pairwise (fun a b => destroyPhase a ≤ destroyPhase b) tr

theorem phaseMono_const (l : List Event) (k : Nat) (h : ∀ e ∈ l, destroyPhase e = k) :
    phaseMono l := by
  induction l with
  | nil => exact List.Pairwise.nil
  | cons a l ih =>
    refine List.Pairwise.cons ?_ (ih (fun e he => h e (List.mem_cons_of_mem a he)))
    intro b hb
    rw [h a (List.mem_cons_self a l), h b (List.mem_cons_of_mem a hb)]

theorem phaseMono_append (l₁ l₂ : List Event) (k : Nat)
    (h₁ : phaseMono l₁) (h₂ : phaseMono l₂)
    (hb₁ : ∀ e ∈ l₁, destroyPhase e ≤ k) (hb₂ : ∀ e ∈ l₂, k ≤ destroyPhase e) :
    phaseMono (l₁ ++ l₂) :=
  List.pairwise_append.mpr ⟨h₁, h₂, fun a ha b hb => le_trans (hb₁ a ha) (hb₂ b hb)⟩

theorem destroy_trace_phaseMono (core : ObsCore) (id : StageId) (st : Stage)
    (hst : findStage core id = some st) :
    phaseMono (obs_stage_destroy core (some id)).2 := by
  rw [destroy_trace_eq core id st hst]
  have hsig : ∀ e ∈ [Event.destroyBegin id, Event.globalSignal "stage_destroy" id,
      Event.stageSignal id "destroy"], destroyPhase e = 0 := by
    intro e he
    simp only [List.mem_cons, List.not_mem_nil, or_false] at he
    rcases he with rfl | rfl | rfl <;> rfl
  have houts : ∀ e ∈ [Event.lockOutputs id] ++ (destroyOutputsLoop core.outs st.outputs).2 ++
      [Event.unlockOutputs id], destroyPhase e = 1 := by
    intro e he
    simp only [List.mem_append, List.mem_cons, List.not_mem_nil, or_false] at he
    rcases he with (rfl | he) | rfl
    · rfl
    · exact destroyOutputsLoop_phase st.outputs core.outs e he
    · rfl
  have hcv : ∀ e ∈ (match st.canvas with
      | some _ => [Event.canvasRelease id] | none => []), destroyPhase e = 2 := by
    intro e he
    rcases hc : st.canvas with _ | cv
    · rw [hc] at he
      simp at he
    · rw [hc] at he
      simp only [List.mem_cons, List.not_mem_nil, or_false] at he
      rw [he]; rfl
  have hreg : ∀ e ∈ [Event.lockStages, Event.unlinkStage id, Event.unlockStages],
      destroyPhase e = 3 := by
    intro e he
    simp only [List.mem_cons, List.not_mem_nil, or_false] at he
    rcases he with rfl | rfl | rfl <;> rfl
  have hfree : ∀ e ∈ [Event.freeStage id], destroyPhase e = 4 := by
    intro e he
    simp only [List.mem_cons, List.not_mem_nil, or_false] at he
    rw [he]; rfl
  have m45 : phaseMono ([Event.lockStages, Event.unlinkStage id, Event.unlockStages] ++
      [Event.freeStage id]) :=
    phaseMono_append _ _ 3 (phaseMono_const _ 3 hreg) (phaseMono_const _ 4 hfree)
      (fun e he => le_of_eq (hreg e he)) (fun e he => by rw [hfree e he]; omega)
  have m345 : phaseMono ((match st.canvas with
      | some _ => [Event.canvasRelease id] | none => []) ++
      ([Event.lockStages, Event.unlinkStage id, Event.unlockStages] ++
       [Event.freeStage id])) := by
    refine phaseMono_append _ _ 2 (phaseMono_const _ 2 hcv) m45
      (fun e he => le_of_eq (hcv e he)) ?_
    intro e he
    rcases List.mem_append.mp he with he | he
    · rw [hreg e he]; omega
    · rw [hfree e he]; omega
  have m2345 : phaseMono (([Event.lockOutputs id] ++
      (destroyOutputsLoop core.outs st.outputs).2 ++ [Event.unlockOutputs id]) ++
      ((match st.canvas with | some _ => [Event.canvasRelease id] | none => []) ++
       ([Event.lockStages, Event.unlinkStage id, Event.unlockStages] ++
        [Event.freeStage id]))) := by
    refine phaseMono_append _ _ 1 (phaseMono_const _ 1 houts) m345
      (fun e he => le_of_eq (houts e he)) ?_
    intro e he
    rcases List.mem_append.mp he with he | he
    · rw [hcv e he]; omega
    · rcases List.mem_append.mp he with he | he
      · rw [hreg e he]; omega
      · rw [hfree e he]; omega
  have mAll : phaseMono ([Event.destroyBegin id, Event.globalSignal "stage_destroy" id,
      Event.stageSignal id "destroy"] ++
      (([Event.lockOutputs id] ++ (destroyOutputsLoop core.outs st.outputs).2 ++
        [Event.unlockOutputs id]) ++
       ((match st.canvas with | some _ => [Event.canvasRelease id] | none => []) ++
        ([Event.lockStages, Event.unlinkStage id, Event.unlockStages] ++
         [Event.freeStage id])))) := by
    refine phaseMono_append _ _ 0 (phaseMono_const _ 0 hsig) m2345
      (fun e he => le_of_eq (hsig e he)) (fun e he => Nat.zero_le _)
  simpa [List.append_assoc] using mAll

theorem countP_map_pres {α : Type} (p : α → Bool) (g : α → α) (l : List α)
    (h : ∀ a, p (g a) = p a) : (l.map g).countP p = l.countP p := by
  induction l with
  | nil => rfl
  | cons a l ih => simp [List.countP_cons, h, ih]

theorem idpred_ite (id : StageId) (f : Stage → Stage) (hf : ∀ s, (f s).id = s.id)
    (a : Stage) :
    ((if a.id == id then f a else a).id == id) = (a.id == id) := by
  by_cases h : (a.id == id) = true
  · rw [if_pos h, hf]
  · rw [if_neg h]

theorem destroy_findStage_none (core : ObsCore) (id : StageId) (st : Stage)
    (hst : findStage core id = some st)
    (hn : (core.stages.map (fun s => s.id)).Nodup) :
    findStage (obs_stage_destroy core (some id)).1 id = none := by
  have hcount : core.stages.countP (fun s => s.id == id) ≤ 1 :=
    countP_le_one_of_nodup (fun s => s.id) core.stages id hn
  rcases hc : st.canvas with _ | cv
  · simp only [obs_stage_destroy, hst, hc]
    show ((core.stages.map (fun s => if s.id == id then
        ({ s with outputs := [] } : Stage) else s)).eraseP
        (fun s => s.id == id)).find? (fun s => s.id == id) = none
    apply find?_eraseP_none
    have e1 := countP_map_pres (fun s => s.id == id)
      (fun s => if s.id == id then ({ s with outputs := [] } : Stage) else s)
      core.stages (idpred_ite id (fun s => { s with outputs := [] }) (fun s => rfl))
    rw [e1]
    exact hcount
  · simp only [obs_stage_destroy, hst, hc]
    show (((core.stages.map (fun s => if s.id == id then
        ({ s with outputs := [] } : Stage) else s)).map (fun s => if s.id == id then
        ({ s with canvas := none } : Stage) else s)).eraseP
        (fun s => s.id == id)).find? (fun s => s.id == id) = none
    apply find?_eraseP_none
    have e1 := countP_map_pres (fun s => s.id == id)
      (fun s => if s.id == id then ({ s with outputs := [] } : Stage) else s)
      core.stages (idpred_ite id (fun s => { s with outputs := [] }) (fun s => rfl))
    have e2 := countP_map_pres (fun s => s.id == id)
      (fun s => if s.id == id then ({ s with canvas := none } : Stage) else s)
      (core.stages.map (fun s => if s.id == id then ({ s with outputs := [] } : Stage) else s))
      (idpred_ite id (fun s => { s with canvas := none }) (fun s => rfl))
    rw [e2, e1]
    exact hcount

/-! ### C5: teardown order -/

/-- C5: for a live stage, the destroy trace begins with the destruction
signal (canvas, outputs and registry membership all still intact at that
point), its events occur in nondecreasing phase order (signal, then
output stop/release, then canvas release, then registry unlink, then
free), every owned output is released, the canvas is released when
bound, the registry unlink happens, the free is the last event, and the
stage is no longer found in the registry afterwards. -/
theorem C5_destroy_order (core : ObsCore) (id : StageId) (st : Stage)
    (hst : findStage core id = some st)
    (hn : (core.stages.map (fun s => s.id)).Nodup) :
    (obs_stage_destroy core (some id)).2.take 3 =
      [Event.destroyBegin id, Event.globalSignal "stage_destroy" id,
       Event.stageSignal id "destroy"] ∧
    phaseMono (obs_stage_destroy core (some id)).2 ∧
    (∀ o ∈ st.outputs, Event.outputRelease o ∈ (obs_stage_destroy core (some id)).2) ∧
    (st.canvas.isSome = true →
      Event.canvasRelease id ∈ (obs_stage_destroy core (some id)).2) ∧
    Event.unlinkStage id ∈ (obs_stage_destroy core (some id)).2 ∧
    (∃ t', (obs_stage_destroy core (some id)).2 = t' ++ [Event.freeStage id]) ∧
    findStage (obs_stage_destroy core (some id)).1 id = none := by
  have htr := destroy_trace_eq core id st hst
  refine ⟨?_, destroy_trace_phaseMono core id st hst, ?_, ?_, ?_, ?_,
    destroy_findStage_none core id st hst hn⟩
  · rw [htr]; rfl
  · intro o ho
    rw [htr]
    have hm := destroyOutputsLoop_release_mem st.outputs core.outs o ho
    simp only [List.mem_append, List.mem_cons]
    tauto
  · intro hcv
    rw [htr]
    cases hc : st.canvas with
    | none => rw [hc] at hcv; simp at hcv
    | some cv => simp
  · rw [htr]
    simp
  · refine ⟨[Event.destroyBegin id, Event.globalSignal "stage_destroy" id,
      Event.stageSignal id "destroy"] ++
      ([Event.lockOutputs id] ++ (destroyOutputsLoop core.outs st.outputs).2 ++
       [Event.unlockOutputs id]) ++
      (match st.canvas with | some _ => [Event.canvasRelease id] | none => []) ++
      [Event.lockStages, Event.unlinkStage id, Event.unlockStages], ?_⟩
    rw [htr]

/-- Witness for C5 at coreOut: the destroy trace of its stage starts
with the destruction signal and ends with the free, and the registry no
longer holds stage 0 afterwards. -/
theorem C5_destroy_order_witness :
    (obs_stage_destroy coreOut (some 0)).2.take 3 =
      [Event.destroyBegin 0, Event.globalSignal "stage_destroy" 0,
       Event.stageSignal 0 "destroy"] ∧
    findStage (obs_stage_destroy coreOut (some 0)).1 0 = none := by
  have h := C5_destroy_order coreOut 0
    { id := 0, flags := 0, name := "s", uuid := none, isPrivate := false,
      canvas := some { name := "s", ovi := ovi0, canvas_flags := 0 },
      outputs := [7, 8] } rfl (by decide)
  exact ⟨h.1, h.2.2.2.2.2.2⟩

/-! ### C2 (corrected): registry walks and the registry mutex -/

theorem destroy_head_stages (core : ObsCore) (s : Stage) (rest : List Stage)
    (hstages : core.stages = s :: rest) (hni : ∀ x ∈ rest, (x.id == s.id) = false) :
    (obs_stage_destroy core (some s.id)).1.stages = rest := by
  have hfind : findStage core s.id = some s := by
    unfold findStage
    rw [hstages]
    exact List.find?_cons_of_pos _ (by simp)
  have hmap1 := map_ite_eq_self (fun x => x.id == s.id)
    (fun x => ({ x with outputs := [] } : Stage)) rest hni
  have hmap2 := map_ite_eq_self (fun x => x.id == s.id)
    (fun x => ({ x with canvas := none } : Stage)) rest hni
  rcases hc : s.canvas with _ | cv
  · simp only [obs_stage_destroy, hfind, hc]
    show (core.stages.map (fun x => if x.id == s.id then
        ({ x with outputs := [] } : Stage) else x)).eraseP (fun x => x.id == s.id) = rest
    rw [hstages, List.map_cons, if_pos (by simp), hmap1,
      List.eraseP_cons_of_pos (by simp)]
  · simp only [obs_stage_destroy, hfind, hc]
    show ((core.stages.map (fun x => if x.id == s.id then
        ({ x with outputs := [] } : Stage) else x)).map (fun x => if x.id == s.id then
        ({ x with canvas := none } : Stage) else x)).eraseP (fun x => x.id == s.id) = rest
    rw [hstages, List.map_cons, if_pos (by simp), hmap1, List.map_cons, if_pos (by simp),
      hmap2, List.eraseP_cons_of_pos (by simp)]

theorem enumWalk_destroy_all (ids : List StageId) :
    ∀ core : ObsCore, core.stages.map (fun s => s.id) = ids → ids.Nodup →
      (enumWalk destroyCurrentCb core ids).2 = ids ∧
      (enumWalk destroyCurrentCb core ids).1.stages = [] := by
  induction ids with
  | nil =>
    intro core hmap _
    have hstages : core.stages = [] := List.map_eq_nil_iff.mp hmap
    exact ⟨rfl, hstages⟩
  | cons id rest ih =>
    intro core hmap hnd
    rcases hs : core.stages with _ | ⟨s, srest⟩
    · rw [hs] at hmap
      simp at hmap
    · rw [hs, List.map_cons] at hmap
      have hid : s.id = id := (List.cons.injEq _ _ _ _ ▸ hmap).1
      have hmap2 : srest.map (fun s => s.id) = rest := (List.cons.injEq _ _ _ _ ▸ hmap).2
      have hfind : findStage core id = some s := by
        unfold findStage
        rw [hs]
        exact List.find?_cons_of_pos _ (by simp [hid])
      have hni : ∀ x ∈ srest, (x.id == s.id) = false := by
        intro x hx
        have hmem : x.id ∈ rest := hmap2 ▸ List.mem_map_of_mem (fun s => s.id) hx
        have hne : x.id ≠ id := by
          intro h
          exact (List.nodup_cons.mp hnd).1 (h ▸ hmem)
        simp [hid, hne]
      have hdest : (obs_stage_destroy core (some s.id)).1.stages = srest :=
        destroy_head_stages core s srest hs hni
      have hih := ih (obs_stage_destroy core (some s.id)).1
        (by rw [hdest]; exact hmap2) (List.nodup_cons.mp hnd).2
      simp only [enumWalk, hfind, destroyCurrentCb, if_true]
      exact ⟨by rw [hih.1], hih.2⟩

/-- C2 counterexample: in the shutdown walk over the one-stage registry
coreA, a stage destruction begins while the walker still holds the
registry mutex (obs_stage_destroy then relocks that same mutex to
unlink) — refuting the claim that destroy never runs while the walker
holds the registry mutex. -/
theorem C2_destroy_under_walk_lock :
    destroyUnderStagesLock (obs_free_stages coreA).2 = true := rfl

/-- C2 (amended): obs_enum_stages captures each next pointer before the
callback runs, so a callback destroying the current stage leaves the
walk intact and every originally-live stage is visited exactly once
(here: the destroy-current callback visits the original id list exactly
and empties the registry); however destruction does not wait for the
walker to release the registry mutex — in obs_free_stages every node is
destroyed while the walker still holds it (the destroy then re-enters
the mutex to unlink), so a reentrant-capable registry mutex is
required. -/
theorem C2_walk_discipline :
    (∀ core : ObsCore, (core.stages.map (fun s => s.id)).Nodup →
      (obs_enum_stages destroyCurrentCb core).2 = core.stages.map (fun s => s.id) ∧
      (obs_enum_stages destroyCurrentCb core).1.stages = []) ∧
    (∀ core : ObsCore, core.stages ≠ [] →
      destroyUnderStagesLock (obs_free_stages core).2 = true) := by
  constructor
  · intro core hnd
    exact enumWalk_destroy_all (core.stages.map (fun s => s.id)) core rfl hnd
  · intro core hne
    rcases hs : core.stages with _ | ⟨s, srest⟩
    · exact absurd hs hne
    · have hfind : findStage core s.id = some s := by
        unfold findStage
        rw [hs]
        exact List.find?_cons_of_pos _ (by simp)
      have htr := destroy_trace_eq core s.id s hfind
      simp only [obs_free_stages, hs, List.map_cons, freeStagesLoop, htr]
      simp [destroyUnderStagesLock, destroyUnderStagesLockAux]

/-- Witness for C2 (amended) at coreA: the destroying enumeration visits
exactly stage 0 and empties the registry, and the shutdown walk destroys
under the held registry mutex. -/
theorem C2_walk_discipline_witness :
    (obs_enum_stages destroyCurrentCb coreA).2 = [0] ∧
    (obs_enum_stages destroyCurrentCb coreA).1.stages = [] ∧
    destroyUnderStagesLock (obs_free_stages coreA).2 = true := by
  have h1 := C2_walk_discipline.1 coreA (by decide)
  refine ⟨?_, h1.2, C2_walk_discipline.2 coreA (by decide)⟩
  rw [h1.1]
  rfl

/-! ### C9: save / load round trip -/

/-- C9: obs_save_stage of an ephemeral stage returns null; for a
non-ephemeral stage with a bound canvas, obs_load_stage applied to the
saved record produces a stage with the same name, the same flags with
the OBS_STAGE_MAIN bit stripped unconditionally, and the same six video
configuration fields. -/
theorem C9_save_load_roundtrip :
    (∀ st : Stage, st.flags &&& OBS_STAGE_EPHEMERAL ≠ 0 →
      obs_save_stage (some st) = none) ∧
    (∀ (core₂ : ObsCore) (st : Stage) (cv : Canvas),
      st.canvas = some cv →
      st.flags &&& OBS_STAGE_EPHEMERAL = 0 →
      st.flags < UINT32_LIMIT →
      cv.ovi.base_width < UINT32_LIMIT → cv.ovi.base_height < UINT32_LIMIT →
      cv.ovi.output_width < UINT32_LIMIT → cv.ovi.output_height < UINT32_LIMIT →
      cv.ovi.fps_num < UINT32_LIMIT → cv.ovi.fps_den < UINT32_LIMIT →
      ∃ d : ObsData,
        obs_save_stage (some st) = some d ∧
        (obs_load_stage core₂ (some d)).2.1 = some core₂.nextId ∧
        (findStage (obs_load_stage core₂ (some d)).1 core₂.nextId).isSome = true ∧
        obs_stage_get_name (findStage (obs_load_stage core₂ (some d)).1 core₂.nextId) =
          some st.name ∧
        obs_stage_get_flags (findStage (obs_load_stage core₂ (some d)).1 core₂.nextId) =
          st.flags &&& NOT_MAIN_MASK ∧
        obs_stage_get_flags (findStage (obs_load_stage core₂ (some d)).1 core₂.nextId) &&&
          OBS_STAGE_MAIN = 0 ∧
        obs_stage_get_video_info (findStage (obs_load_stage core₂ (some d)).1 core₂.nextId) =
          some cv.ovi) := by
  constructor
  · intro st h
    have hb : (st.flags &&& OBS_STAGE_EPHEMERAL != 0) = true := by simpa using h
    simp [obs_save_stage, hb]
  · intro core₂ st cv hcv heph hfl hb1 hb2 hb3 hb4 hb5 hb6
    have hbe : (st.flags &&& OBS_STAGE_EPHEMERAL != 0) = false := by simpa using heph
    have hsave : obs_save_stage (some st) =
        some { name := st.name, flags := st.flags,
               base_width := cv.ovi.base_width, base_height := cv.ovi.base_height,
               output_width := cv.ovi.output_width, output_height := cv.ovi.output_height,
               fps_num := cv.ovi.fps_num, fps_den := cv.ovi.fps_den } := by
      simp [obs_save_stage, hbe, obs_stage_get_video_info, hcv]
    refine ⟨_, hsave, rfl, ?_, ?_, ?_, ?_, ?_⟩
    · simp [obs_load_stage, obs_stage_create_internal, findStage]
    · simp [obs_load_stage, obs_stage_create_internal, findStage, obs_stage_get_name]
    · simp [obs_load_stage, obs_stage_create_internal, findStage, obs_stage_get_flags,
        Nat.mod_eq_of_lt hfl]
    · simpa [obs_load_stage, obs_stage_create_internal, findStage, obs_stage_get_flags]
        using land_notMain_main (st.flags % UINT32_LIMIT)
    · simp [obs_load_stage, obs_stage_create_internal, findStage, obs_stage_get_video_info,
        Nat.mod_eq_of_lt hb1, Nat.mod_eq_of_lt hb2, Nat.mod_eq_of_lt hb3,
        Nat.mod_eq_of_lt hb4, Nat.mod_eq_of_lt hb5, Nat.mod_eq_of_lt hb6]

/-- A non-ephemeral stage with a bound canvas, for the C9 witness. -/
def stageB : Stage :=
  { id := 3, flags := 0, name := "B", uuid := none, isPrivate := false,
    canvas := some { name := "B", ovi := ovi0, canvas_flags := 0 }, outputs := [] }

/-- An ephemeral stage, for the C9 witness. -/
def stageE : Stage :=
  { id := 4, flags := OBS_STAGE_EPHEMERAL, name := "E", uuid := none, isPrivate := false,
    canvas := some { name := "E", ovi := ovi0, canvas_flags := EPHEMERAL }, outputs := [] }

/-- Witness for C9 at concrete stages: the ephemeral stage is not saved;
the non-ephemeral stage round-trips its name through save and load. -/
theorem C9_save_load_roundtrip_witness :
    obs_save_stage (some stageE) = none ∧
    (∃ d, obs_save_stage (some stageB) = some d ∧
      obs_stage_get_name (findStage (obs_load_stage core0 (some d)).1 0) = some "B") := by
  constructor
  · exact C9_save_load_roundtrip.1 stageE (by decide)
  · obtain ⟨d, h1, h2, h3, h4, h5⟩ := C9_save_load_roundtrip.2 core0 stageB
      { name := "B", ovi := ovi0, canvas_flags := 0 } rfl (by decide) (by decide)
      (by decide) (by decide) (by decide) (by decide) (by decide) (by decide)
    exact ⟨d, h1, h4⟩

/-! ### C1: strong and weak reference counting -/

theorem destroy_trace_phase_le4 (core : ObsCore) (id : StageId) (st : Stage)
    (hst : findStage core id = some st) :
    ∀ e ∈ (obs_stage_destroy core (some id)).2, destroyPhase e ≤ 4 := by
  intro e he
  rw [destroy_trace_eq core id st hst] at he
  rcases hc : st.canvas with _ | cv <;> rw [hc] at he <;>
    simp only [List.mem_append, List.mem_cons, List.not_mem_nil, or_false,
      List.nil_append, or_assoc] at he
  · rcases he with rfl | rfl | rfl | rfl | he | rfl | rfl | rfl | rfl | rfl <;>
      first
        | (simp only [destroyPhase]; omega)
        | (have hp := destroyOutputsLoop_phase st.outputs core.outs e he; omega)
  · rcases he with rfl | rfl | rfl | rfl | he | rfl | rfl | rfl | rfl | rfl | rfl <;>
      first
        | (simp only [destroyPhase]; omega)
        | (have hp := destroyOutputsLoop_phase st.outputs core.outs e he; omega)

theorem destroy_countP_destroyBegin (core : ObsCore) (id : StageId) (st : Stage)
    (hst : findStage core id = some st) :
    (obs_stage_destroy core (some id)).2.countP
      (fun e => e == Event.destroyBegin id) = 1 := by
  have hz : (destroyOutputsLoop core.outs st.outputs).2.countP
      (fun e => e == Event.destroyBegin id) = 0 := by
    rw [List.countP_eq_zero]
    intro e he
    have hph := destroyOutputsLoop_phase st.outputs core.outs e he
    simp only [beq_iff_eq]
    intro hE
    rw [hE] at hph
    simp [destroyPhase] at hph
  rw [destroy_trace_eq core id st hst]
  rcases hc : st.canvas with _ | cv <;>
    simp [List.countP_append, List.countP_cons, hz]

theorem destroy_countP_weakRelease (core : ObsCore) (id : StageId) (st : Stage)
    (hst : findStage core id = some st) :
    (obs_stage_destroy core (some id)).2.countP
      (fun e => e == Event.weakRelease id) = 0 := by
  rw [List.countP_eq_zero]
  intro e he
  have h4 := destroy_trace_phase_le4 core id st hst e he
  simp only [beq_iff_eq]
  intro hE
  rw [hE] at h4
  simp [destroyPhase] at h4

theorem setControl_keys (core : ObsCore) (id : StageId) (r : ObsWeakRef) :
    (setControl core id r).controls.map (fun c => c.fst) =
      core.controls.map (fun c => c.fst) := by
  unfold setControl
  rw [List.map_map]
  apply List.map_congr_left
  intro c hc
  by_cases h : (c.fst == id) = true
  · simp only [Function.comp_apply, if_pos h]
    exact (beq_iff_eq.mp h).symm
  · simp only [Function.comp_apply, if_neg h]

theorem lookupControl_eraseControl_none (core : ObsCore) (id : StageId)
    (hn : (core.controls.map (fun c => c.fst)).Nodup) :
    lookupControl (eraseControl core id) id = none := by
  have hfind := find?_eraseP_none (fun c : StageId × ObsWeakRef => c.fst == id)
    core.controls (countP_le_one_of_nodup (fun c => c.fst) core.controls id hn)
  unfold lookupControl eraseControl
  rw [hfind]
  rfl

theorem weak_release_stages (core : ObsCore) (sid : Option StageId) :
    (obs_weak_stage_release core sid).1.stages = core.stages := by
  match sid with
  | none => rfl
  | some id =>
    rcases hl : lookupControl core id with _ | r
    · simp [obs_weak_stage_release, hl]
    · simp only [obs_weak_stage_release, hl]
      split <;> rfl

theorem lookupControl_destroy (core : ObsCore) (sid : Option StageId) (id : StageId) :
    lookupControl (obs_stage_destroy core sid).1 id = lookupControl core id := by
  unfold lookupControl
  rw [destroy_controls]

/-- C1: while the strong count is positive, obs_stage_release decrements
it; exactly when it reaches zero, obs_stage_destroy runs exactly once
and the implicit self weak reference is released afterwards (the trace
is phase-monotone with the weak-release events strictly after every
teardown event); the control block survives the stage when external weak
handles remain and disappears exactly when the weak count also reaches
zero; and obs_weak_stage_release frees the control block only when both
counts have reached zero (given the discipline that a live stage always
holds its implicit self weak reference, so a positive strong count
forces a weak count of at least two during an external weak release). -/
theorem C1_release_refcount :
    (∀ (core : ObsCore) (id : StageId) (r : ObsWeakRef) (st : Stage),
      lookupControl core id = some r → findStage core id = some st → 0 < r.refs →
      (core.stages.map (fun s => s.id)).Nodup →
      (core.controls.map (fun c => c.fst)).Nodup →
      ((1 < r.refs →
         obs_stage_release core (some id) =
           (setControl core id { r with refs := r.refs - 1 }, [])) ∧
       (r.refs = 1 →
         ((obs_stage_release core (some id)).2.countP
            (fun e => e == Event.destroyBegin id)) = 1 ∧
         ((obs_stage_release core (some id)).2.countP
            (fun e => e == Event.weakRelease id)) = 1 ∧
         phaseMono (obs_stage_release core (some id)).2 ∧
         findStage (obs_stage_release core (some id)).1 id = none ∧
         (1 < r.weak_refs →
            lookupControl (obs_stage_release core (some id)).1 id =
              some { refs := 0, weak_refs := r.weak_refs - 1 }) ∧
         (r.weak_refs = 1 →
            lookupControl (obs_stage_release core (some id)).1 id = none)))) ∧
    (∀ (core : ObsCore) (id : StageId) (r : ObsWeakRef),
      lookupControl core id = some r → 0 < r.weak_refs →
      (0 < r.refs → 2 ≤ r.weak_refs) →
      (core.controls.map (fun c => c.fst)).Nodup →
      ((lookupControl (obs_weak_stage_release core (some id)).1 id = none ↔
          r.weak_refs = 1) ∧
       (r.weak_refs = 1 → r.refs = 0 ∧
          (obs_weak_stage_release core (some id)).2 =
            [Event.weakRelease id, Event.freeControl id]))) := by
  constructor
  · intro core id r st hlook hst hpos hns hnc
    constructor
    · intro hgt
      have hne : (r.refs - 1 == 0) = false := by
        simp only [beq_eq_false_iff_ne, ne_eq]
        omega
      simp [obs_stage_release, hlook, obs_ref_release, hne]
    · intro h1
      obtain ⟨rrefs, rweak⟩ := r
      simp only at h1
      subst h1
      have hrel : obs_stage_release core (some id) =
          ((obs_weak_stage_release
              (obs_stage_destroy (setControl core id ⟨0, rweak⟩) (some id)).1 (some id)).1,
           (obs_stage_destroy (setControl core id ⟨0, rweak⟩) (some id)).2 ++
           (obs_weak_stage_release
              (obs_stage_destroy (setControl core id ⟨0, rweak⟩) (some id)).1 (some id)).2) := by
        simp [obs_stage_release, hlook, obs_ref_release]
      have hst1 : findStage (setControl core id ⟨0, rweak⟩) id = some st := hst
      have hns1 : ((setControl core id ⟨0, rweak⟩).stages.map (fun s => s.id)).Nodup := hns
      have hlook1 : lookupControl (setControl core id ⟨0, rweak⟩) id = some ⟨0, rweak⟩ :=
        lookupControl_setControl core id ⟨0, rweak⟩ ⟨1, rweak⟩ hlook
      have hlookd : lookupControl
          (obs_stage_destroy (setControl core id ⟨0, rweak⟩) (some id)).1 id =
          some ⟨0, rweak⟩ := by
        rw [lookupControl_destroy]
        exact hlook1
      have hkeys1 : ((setControl core id ⟨0, rweak⟩).controls.map (fun c => c.fst)).Nodup := by
        rw [setControl_keys]
        exact hnc
      have hkeysd : ((obs_stage_destroy (setControl core id ⟨0, rweak⟩)
          (some id)).1.controls.map (fun c => c.fst)).Nodup := by
        rw [destroy_controls]
        exact hkeys1
      have hwtr : ∀ e ∈ (obs_weak_stage_release
          (obs_stage_destroy (setControl core id ⟨0, rweak⟩) (some id)).1 (some id)).2,
          destroyPhase e = 5 := by
        intro e he
        simp only [obs_weak_stage_release, hlookd, obs_weak_ref_release] at he
        by_cases hw : (rweak - 1 == 0) = true
        · rw [if_pos hw] at he
          simp only [List.mem_cons, List.not_mem_nil, or_false] at he
          rcases he with rfl | rfl <;> rfl
        · rw [if_neg hw] at he
          simp only [List.mem_cons, List.not_mem_nil, or_false] at he
          rw [he]; rfl
      have hwcount : (obs_weak_stage_release
          (obs_stage_destroy (setControl core id ⟨0, rweak⟩) (some id)).1 (some id)).2.countP
          (fun e => e == Event.weakRelease id) = 1 := by
        simp only [obs_weak_stage_release, hlookd, obs_weak_ref_release]
        by_cases hw : (rweak - 1 == 0) = true
        · rw [if_pos hw]
          simp
        · rw [if_neg hw]
          simp
      have hwnobegin : (obs_weak_stage_release
          (obs_stage_destroy (setControl core id ⟨0, rweak⟩) (some id)).1 (some id)).2.countP
          (fun e => e == Event.destroyBegin id) = 0 := by
        rw [List.countP_eq_zero]
        intro e he
        have := hwtr e he
        simp only [beq_iff_eq]
        intro hE
        rw [hE] at this
        simp [destroyPhase] at this
      rw [hrel]
      refine ⟨?_, ?_, ?_, ?_, ?_, ?_⟩
      · simp only [List.countP_append]
        rw [destroy_countP_destroyBegin _ id st hst1, hwnobegin]
      · simp only [List.countP_append]
        rw [destroy_countP_weakRelease _ id st hst1, hwcount]
      · refine phaseMono_append _ _ 5
          (destroy_trace_phaseMono _ id st hst1) (phaseMono_const _ 5 hwtr) ?_ ?_
        · intro e he
          have := destroy_trace_phase_le4 _ id st hst1 e he
          omega
        · intro e he
          exact le_of_eq (hwtr e he).symm
      · show findStage (obs_weak_stage_release _ (some id)).1 id = none
        unfold findStage
        rw [weak_release_stages]
        exact destroy_findStage_none _ id st hst1 hns1
      · intro hgt
        have hgt2 : 1 < rweak := hgt
        have hw : (rweak - 1 == 0) = false := by
          simp only [beq_eq_false_iff_ne, ne_eq]
          omega
        simp only [obs_weak_stage_release, hlookd, obs_weak_ref_release, hw]
        rw [if_neg (by simp [hw])]
        exact lookupControl_setControl _ id _ _ hlookd
      · intro heq
        subst heq
        have hw : ((1 : Nat) - 1 == 0) = true := by decide
        simp only [obs_weak_stage_release, hlookd, obs_weak_ref_release]
        rw [if_pos (by decide)]
        exact lookupControl_eraseControl_none _ id hkeysd
  · intro core id r hlook hwpos hdisc hnc
    constructor
    · constructor
      · intro hnone
        by_contra hne
        have hw : (r.weak_refs - 1 == 0) = false := by
          simp only [beq_eq_false_iff_ne, ne_eq]
          omega
        rw [show (obs_weak_stage_release core (some id)).1 =
            setControl core id { r with weak_refs := r.weak_refs - 1 } from by
          simp [obs_weak_stage_release, hlook, obs_weak_ref_release, hw]] at hnone
        rw [lookupControl_setControl core id _ r hlook] at hnone
        exact Option.noConfusion hnone
      · intro heq
        have hw : (r.weak_refs - 1 == 0) = true := by
          simp [heq]
        rw [show (obs_weak_stage_release core (some id)).1 = eraseControl core id from by
          simp [obs_weak_stage_release, hlook, obs_weak_ref_release, hw]]
        exact lookupControl_eraseControl_none core id hnc
    · intro heq
      have hrefs : r.refs = 0 := by
        by_contra hne
        have := hdisc (Nat.pos_of_ne_zero hne)
        omega
      refine ⟨hrefs, ?_⟩
      have hw : (r.weak_refs - 1 == 0) = true := by
        simp [heq]
      simp [obs_weak_stage_release, hlook, obs_weak_ref_release, hw]

/-- Witness for C1 at concrete cores: releasing the only strong
reference of coreA destroys its stage exactly once, and an
obs_weak_stage_release on the already-dead control block of coreDead
frees it. -/
theorem C1_release_refcount_witness :
    (obs_stage_release coreA (some 0)).2.countP
      (fun e => e == Event.destroyBegin 0) = 1 ∧
    lookupControl (obs_weak_stage_release coreDead (some 5)).1 5 = none := by
  constructor
  · exact ((C1_release_refcount.1 coreA 0 ⟨1, 1⟩ stageA rfl rfl (by decide)
      (by decide) (by decide)).2 rfl).1
  · exact (C1_release_refcount.2 coreDead 5 ⟨0, 1⟩ rfl (by decide)
      (fun h => absurd h (by decide)) (by decide)).1.mpr rfl

end ObsImpl
